import Mathlib

/-! Wood species image manifest.

A verification development for `wood_image_integration.js`, whose only
declaration is the constant array `speciesNeedingImages` of
`{ name, filename }` object literals.  The array literal is transcribed
entry by entry, in source order; every string is ASCII, so JavaScript
UTF-16 code units and Lean characters coincide.
-/

namespace WoodImageIntegration

/-- One object literal `{ name: ..., filename: ... }` of the array. -/
structure SpeciesImageEntry where
  name : String
  filename : String
deriving DecidableEq, Repr

/-- The array literal `const speciesNeedingImages = [ ... ]`, in source order. -/
def speciesNeedingImages : List SpeciesImageEntry :=
  [ { name := "Ash", filename := "ash_400.jpg" },
    { name := "Basswood", filename := "basswood_400.jpg" },
    { name := "Beech", filename := "beech_400.jpg" },
    { name := "Birch", filename := "birch_400.jpg" },
    { name := "Eastern White Pine", filename := "eastern_white_pine_400.jpg" },
    { name := "Hickory", filename := "hickory_400.jpg" },
    { name := "Mahogany", filename := "mahogany_400.jpg" },
    { name := "Poplar", filename := "poplar_400.jpg" },
    { name := "Purple Heart", filename := "purple_heart_400.jpg" },
    { name := "Teak", filename := "teak_400.jpg" },
    { name := "Western Red Cedar", filename := "western_red_cedar_400.jpg" },
    { name := "White Oak", filename := "white_oak_400.jpg" } ]

/-- The file name written in the comment "Example update for Ash":
`grainImage: "ash_400.jpg"`. -/
def ashExampleGrainImage : String := "ash_400.jpg"

/-- Slug of a species name, as the specification words it (the source has no
such function): every letter lowercased, every space replaced by an
underscore, all other characters kept. -/
def specSlug (s : String) : String :=
  String.mk (s.toList.map fun c => if c = ' ' then '_' else c.toLower)

/-- File name the specification's convention derives from a name:
`<slug>_400.jpg`. -/
def specFilename (s : String) : String :=
  specSlug s ++ "_400.jpg"

/-- Characters the file names are drawn from: lowercase ASCII letters,
digits, underscore and dot. -/
def isFilenameChar (c : Char) : Bool :=
  ('a' ≤ c && c ≤ 'z') || ('0' ≤ c && c ≤ '9') || c == '_' || c == '.'

/-- Uppercase ASCII letter. -/
def isUpperAscii (c : Char) : Bool :=
  'A' ≤ c && c ≤ 'Z'

/-- Path separators: slash and backslash. -/
def isPathSeparator (c : Char) : Bool :=
  c == '/' || c == Char.ofNat 92

/-! ## Lemmas -/

/-- String order is the lexicographic order of the character lists. -/
theorem string_lt_of_toList_lt (s t : String) (h : s.toList < t.toList) : s < t :=
  String.lt_iff_toList_lt.mpr h

/-! ## The manifest's properties -/

/-- C1: every entry's filename is the slug of its name (letters lowercased,
spaces replaced by underscores) followed by `_400.jpg`; the convention gives
the file names quoted for "Eastern White Pine", "Purple Heart" and
"White Oak", and for "Ash" the name written in the example-update comment. -/
theorem filename_follows_convention (E : SpeciesImageEntry)
    (hE : E ∈ speciesNeedingImages) :
    E.filename = specSlug E.name ++ "_400.jpg" ∧
    specSlug "Eastern White Pine" ++ "_400.jpg" = "eastern_white_pine_400.jpg" ∧
    specSlug "Purple Heart" ++ "_400.jpg" = "purple_heart_400.jpg" ∧
    specSlug "White Oak" ++ "_400.jpg" = "white_oak_400.jpg" ∧
    specSlug "Ash" ++ "_400.jpg" = ashExampleGrainImage := by
  revert E
  decide

theorem filename_follows_convention_witness :
    ({ name := "White Oak", filename := "white_oak_400.jpg" } : SpeciesImageEntry)
        ∈ speciesNeedingImages ∧
    ("white_oak_400.jpg" = specSlug "White Oak" ++ "_400.jpg" ∧
    specSlug "Eastern White Pine" ++ "_400.jpg" = "eastern_white_pine_400.jpg" ∧
    specSlug "Purple Heart" ++ "_400.jpg" = "purple_heart_400.jpg" ∧
    specSlug "White Oak" ++ "_400.jpg" = "white_oak_400.jpg" ∧
    specSlug "Ash" ++ "_400.jpg" = ashExampleGrainImage) :=
  ⟨by decide, filename_follows_convention ⟨"White Oak", "white_oak_400.jpg"⟩ (by decide)⟩

/-- C2: no two entries share a name: indices whose entries have equal
names are equal. -/
theorem names_unique (i j : Fin speciesNeedingImages.length)
    (hname : (speciesNeedingImages.get i).name = (speciesNeedingImages.get j).name) :
    i = j := by
  revert i j
  decide

theorem names_unique_witness :
    (speciesNeedingImages.get ⟨4, by decide⟩).name
        = (speciesNeedingImages.get ⟨4, by decide⟩).name ∧
    (⟨4, by decide⟩ : Fin speciesNeedingImages.length) = ⟨4, by decide⟩ :=
  ⟨rfl, names_unique ⟨4, by decide⟩ ⟨4, by decide⟩ rfl⟩

/-- C3: the array has exactly 12 entries. -/
theorem length_eq_twelve : speciesNeedingImages.length = 12 := rfl

/-- C4: every entry's filename is a non-empty string whose last four
characters are `.jpg`. -/
theorem filename_ends_with_jpg (E : SpeciesImageEntry)
    (hE : E ∈ speciesNeedingImages) :
    E.filename ≠ "" ∧ 0 < E.filename.length ∧
    E.filename.toList.drop (E.filename.length - 4) = ['.', 'j', 'p', 'g'] := by
  revert E
  decide

theorem filename_ends_with_jpg_witness :
    ({ name := "Ash", filename := "ash_400.jpg" } : SpeciesImageEntry)
        ∈ speciesNeedingImages ∧
    ("ash_400.jpg" ≠ "" ∧ 0 < "ash_400.jpg".length ∧
    "ash_400.jpg".toList.drop ("ash_400.jpg".length - 4) = ['.', 'j', 'p', 'g']) :=
  ⟨by decide, filename_ends_with_jpg ⟨"Ash", "ash_400.jpg"⟩ (by decide)⟩

/-- C6: no two entries share a filename: indices whose entries have equal
filenames are equal. -/
theorem filenames_unique (i j : Fin speciesNeedingImages.length)
    (hfile : (speciesNeedingImages.get i).filename
        = (speciesNeedingImages.get j).filename) :
    i = j := by
  revert i j
  decide

theorem filenames_unique_witness :
    (speciesNeedingImages.get ⟨8, by decide⟩).filename
        = (speciesNeedingImages.get ⟨8, by decide⟩).filename ∧
    (⟨8, by decide⟩ : Fin speciesNeedingImages.length) = ⟨8, by decide⟩ :=
  ⟨rfl, filenames_unique ⟨8, by decide⟩ ⟨8, by decide⟩ rfl⟩

/-- C7: the entries are in strictly ascending lexicographic (character-code)
order of name: each entry's name is strictly less than the next entry's
name, the first name is "Ash" and the last is "White Oak". -/
theorem names_strictly_ascending :
    List.Chain' (fun a b : SpeciesImageEntry => a.name < b.name) speciesNeedingImages ∧
    (speciesNeedingImages.head?).map SpeciesImageEntry.name = some "Ash" ∧
    (speciesNeedingImages.getLast?).map SpeciesImageEntry.name = some "White Oak" := by
  refine ⟨?_, by decide, by decide⟩
  simp only [speciesNeedingImages, List.chain'_cons, List.chain'_singleton, and_true]
  refine ⟨?_, ?_, ?_, ?_, ?_, ?_, ?_, ?_, ?_, ?_, ?_⟩ <;>
    exact string_lt_of_toList_lt _ _ (by decide)

/-- C8: every character of every entry's filename is a lowercase ASCII
letter, a digit, an underscore or a dot; the filename has exactly one dot and
is 8 characters longer than the name; it holds no space, no uppercase letter
and no path separator. -/
theorem filename_charset (E : SpeciesImageEntry)
    (hE : E ∈ speciesNeedingImages) :
    (∀ c ∈ E.filename.toList, isFilenameChar c = true) ∧
    E.filename.toList.count '.' = 1 ∧
    E.filename.length = E.name.length + 8 ∧
    (∀ c ∈ E.filename.toList,
      c ≠ ' ' ∧ isUpperAscii c = false ∧ isPathSeparator c = false) := by
  revert E
  decide

theorem filename_charset_witness :
    ({ name := "Western Red Cedar", filename := "western_red_cedar_400.jpg" }
        : SpeciesImageEntry) ∈ speciesNeedingImages ∧
    ((∀ c ∈ "western_red_cedar_400.jpg".toList, isFilenameChar c = true) ∧
    "western_red_cedar_400.jpg".toList.count '.' = 1 ∧
    "western_red_cedar_400.jpg".length = "Western Red Cedar".length + 8 ∧
    (∀ c ∈ "western_red_cedar_400.jpg".toList,
      c ≠ ' ' ∧ isUpperAscii c = false ∧ isPathSeparator c = false)) :=
  ⟨by decide,
    filename_charset ⟨"Western Red Cedar", "western_red_cedar_400.jpg"⟩ (by decide)⟩

end WoodImageIntegration
